import Mathlib

/-!
Verification of the crime-weighted route planning engine
(`route_calculations.py`, `app.py`, `utils.py`) against its
natural-language specification.

The road network is modelled as an undirected attributed multigraph, the
data model the specification prescribes for planning purposes: nodes carry
coordinates (`x` = longitude, `y` = latitude, in degrees) and every edge
carries a key (`eid`, the identity of its networkx attribute dictionary)
and two endpoints.  Edge attributes (a dictionary from attribute name to
float) are modelled as a total function `ℕ → String → K` from edge key and
attribute name to a value in a linear ordered field `K`; Python floats are
modelled as exact field elements (`ℚ` for executable instances, `ℝ` where
real analysis is needed).  Mutation of edge attributes is modelled by
explicit state passing: a function that mutates the graph in place returns
the updated graph value.
-/

namespace SafeRoute

/-- A road-network node: networkx node id plus the `x`/`y` coordinate
attributes (longitude/latitude in degrees). -/
structure Node (K : Type) where
  id : ℕ
  x : K
  y : K
  deriving Repr, DecidableEq

/-- An undirected multigraph edge: `eid` is the identity of its attribute
dictionary (one per parallel edge), `u`/`v` its endpoints. -/
structure Edge where
  eid : ℕ
  u : ℕ
  v : ℕ
  deriving Repr, DecidableEq

/-- The road graph: node list, edge list, and the edge-attribute store
(edge key → attribute name → value).  The `length` cost of an edge `e` is
`attrs e.eid "length"`. -/
structure Graph (K : Type) where
  nodes : List (Node K)
  edges : List Edge
  attrs : ℕ → String → K

variable {K : Type} [LinearOrderedField K]

/-- `graph.nodes(data=True)` filtered by the axis-aligned box test of
`adjust_weights_for_crime` (route_calculations.py lines 74-75):
`abs(data['y'] - crime_lat) < radius and abs(data['x'] - crime_lon) < radius`. -/
def nearby_nodes (g : Graph K) (crime_lat crime_lon radius : K) : List ℕ :=
  ((g.nodes.filter fun nd =>
      decide (|nd.y - crime_lat| < radius) && decide (|nd.x - crime_lon| < radius)).map
    fun nd => nd.id)

/-- `graph.neighbors(node)`: the distinct nodes adjacent to `node`
(undirected incidence), in edge-list order. -/
def neighborsOf (g : Graph K) (n : ℕ) : List ℕ :=
  (((g.edges.filter fun e => decide (e.u = n) || decide (e.v = n)).map
      fun e => if e.u = n then e.v else e.u)).dedup

/-- `graph.get_edge_data(n, m)`: the keys of the parallel edges joining
`n` and `m` (the keys of the returned attribute-dictionary-of-dictionaries),
in edge-list order. -/
def get_edge_data (g : Graph K) (n m : ℕ) : List ℕ :=
  ((g.edges.filter fun e =>
      (decide (e.u = n) && decide (e.v = m)) || (decide (e.u = m) && decide (e.v = n))).map
    fun e => e.eid)

/-- `edge_data[key]['length'] *= factor`: multiply the `length` attribute
stored under edge key `k`, leaving every other entry of the attribute
store unchanged. -/
def bumpLength (A : ℕ → String → K) (k : ℕ) (factor : K) : ℕ → String → K :=
  fun i s => if i = k ∧ s = "length" then A i s * factor else A i s

/-- The body of the outer loop of `adjust_weights_for_crime` for a single
crime spot `(crime_lat, crime_lon, severity)` (route_calculations.py lines
72-82): find the nearby nodes, and for each of them multiply the `length`
of every incident edge by `(1 + severity)`.  The graph structure (nodes,
edges) is never modified, so neighbour and edge-key queries are made
against the unmodified structure exactly as in the source. -/
def applySpot (g : Graph K) (spot : K × K × K) (radius : K) : Graph K :=
  { g with
    attrs :=
      (nearby_nodes g spot.1 spot.2.1 radius).foldl
        (fun A node =>
          (neighborsOf g node).foldl
            (fun A neighbor =>
              (get_edge_data g node neighbor).foldl
                (fun A key => bumpLength A key (1 + spot.2.2)) A)
            A)
        g.attrs }

/-- `adjust_weights_for_crime(graph, crime_locations, radius)`
(route_calculations.py lines 71-83): fold the per-spot adjustment over the
crime-location list and return the (in-place mutated) graph. -/
def adjust_weights_for_crime (graph : Graph K) (crime_locations : List (K × K × K))
    (radius : K) : Graph K :=
  crime_locations.foldl (fun g spot => applySpot g spot radius) graph

/-- The flattened list of edge keys whose `length` gets multiplied while
processing one crime spot: one occurrence per qualifying
(nearby node, neighbour, parallel-edge key) triple. -/
def spotEvents (g : Graph K) (spot : K × K × K) (radius : K) : List ℕ :=
  (nearby_nodes g spot.1 spot.2.1 radius).flatMap fun node =>
    (neighborsOf g node).flatMap fun neighbor => get_edge_data g node neighbor

/-- Structure preservation: one spot application touches only `attrs`. -/
theorem applySpot_nodes (g : Graph K) (spot : K × K × K) (radius : K) :
    (applySpot g spot radius).nodes = g.nodes := rfl

theorem applySpot_edges (g : Graph K) (spot : K × K × K) (radius : K) :
    (applySpot g spot radius).edges = g.edges := rfl

theorem adjust_nodes (g : Graph K) (spots : List (K × K × K)) (radius : K) :
    (adjust_weights_for_crime g spots radius).nodes = g.nodes := by
  induction spots generalizing g with
  | nil => rfl
  | cons s rest ih => simpa [adjust_weights_for_crime] using ih (applySpot g s radius)

theorem adjust_edges (g : Graph K) (spots : List (K × K × K)) (radius : K) :
    (adjust_weights_for_crime g spots radius).edges = g.edges := by
  induction spots generalizing g with
  | nil => rfl
  | cons s rest ih => simpa [adjust_weights_for_crime] using ih (applySpot g s radius)

/-- Folding the length-bump over a list of edge keys multiplies the
`length` entry of key `i` by `factor ^ (number of occurrences of i)` and
leaves everything else unchanged. -/
theorem foldl_bumpLength (l : List ℕ) (A : ℕ → String → K) (factor : K) (i : ℕ) (s : String) :
    (l.foldl (fun A k => bumpLength A k factor) A) i s =
      if s = "length" then A i s * factor ^ (l.count i) else A i s := by
  induction l generalizing A with
  | nil => simp
  | cons k rest ih =>
    by_cases hs : s = "length"
    · subst hs
      by_cases hik : i = k
      · subst hik
        simp only [List.foldl_cons, ih, bumpLength, and_self, if_pos, List.count_cons_self,
          pow_succ, if_true]
        ring
      · simp [ih, bumpLength, hik, List.count_cons, Ne.symm hik]
    · simp [ih, bumpLength, hs]

/-- Folding an inner fold over an outer list is the fold over the
flattened list. -/
theorem foldl_flatMap_eq {σ α β : Type} (step : σ → β → σ) (outer : List α)
    (inner : α → List β) (init : σ) :
    outer.foldl (fun A x => (inner x).foldl step A) init =
      (outer.flatMap inner).foldl step init := by
  induction outer generalizing init with
  | nil => rfl
  | cons x rest ih => simp [List.flatMap_cons, List.foldl_append, ih]

/-- Nested fold over nearby nodes, neighbours and edge keys equals the
fold over the flattened event list. -/
theorem applySpot_attrs (g : Graph K) (spot : K × K × K) (radius : K) :
    (applySpot g spot radius).attrs =
      (spotEvents g spot radius).foldl
        (fun A k => bumpLength A k (1 + spot.2.2)) g.attrs := by
  unfold applySpot spotEvents
  have h1 : ∀ (A : ℕ → String → K) (node : ℕ),
      (neighborsOf g node).foldl
        (fun A neighbor =>
          (get_edge_data g node neighbor).foldl
            (fun A key => bumpLength A key (1 + spot.2.2)) A) A =
      ((neighborsOf g node).flatMap fun neighbor => get_edge_data g node neighbor).foldl
        (fun A key => bumpLength A key (1 + spot.2.2)) A :=
    fun A node => foldl_flatMap_eq _ _ _ A
  simp only [h1]
  exact foldl_flatMap_eq _ _ _ g.attrs

/-- Effect of one spot on a single attribute entry. -/
theorem applySpot_attrs_apply (g : Graph K) (spot : K × K × K) (radius : K)
    (i : ℕ) (s : String) :
    (applySpot g spot radius).attrs i s =
      if s = "length" then
        g.attrs i s * (1 + spot.2.2) ^ ((spotEvents g spot radius).count i)
      else g.attrs i s := by
  rw [applySpot_attrs, foldl_bumpLength]

/-- `spotEvents` only looks at the graph structure, not at `attrs`. -/
theorem spotEvents_applySpot (g : Graph K) (spot spot' : K × K × K) (radius radius' : K) :
    spotEvents (applySpot g spot' radius') spot radius = spotEvents g spot radius := rfl

/-- Closed form of the weight adjustment: every `length` entry is the
original value times the product, over the crime spots in order, of
`(1 + severity) ^ (number of qualifying incidences)`; all other attribute
entries are untouched. -/
theorem adjust_attrs_apply (g : Graph K) (spots : List (K × K × K)) (radius : K)
    (i : ℕ) (s : String) :
    (adjust_weights_for_crime g spots radius).attrs i s =
      if s = "length" then
        g.attrs i s *
          (spots.map fun spot => (1 + spot.2.2) ^ ((spotEvents g spot radius).count i)).prod
      else g.attrs i s := by
  induction spots generalizing g with
  | nil => simp [adjust_weights_for_crime]
  | cons spot rest ih =>
    have hstep : adjust_weights_for_crime g (spot :: rest) radius =
        adjust_weights_for_crime (applySpot g spot radius) rest radius := rfl
    rw [hstep, ih (applySpot g spot radius)]
    by_cases hs : s = "length"
    · subst hs
      simp only [if_pos rfl, if_true, List.map_cons, List.prod_cons, spotEvents_applySpot]
      rw [applySpot_attrs_apply]
      simp only [if_pos rfl, if_true]
      ring
    · simp only [if_neg hs]
      rw [applySpot_attrs_apply]
      simp [hs]

/-- A list product of elements that are all at least one is at least one. -/
theorem one_le_list_prod {l : List K} (h : ∀ x ∈ l, 1 ≤ x) : 1 ≤ l.prod := by
  induction l with
  | nil => simp
  | cons x rest ih =>
    have hx : 1 ≤ x := h x (List.mem_cons_self x rest)
    have hr : 1 ≤ rest.prod := ih fun y hy => h y (List.mem_cons_of_mem x hy)
    rw [List.prod_cons]
    nlinarith

/-- An edge key only appears in a spot's event list if some edge with that
key has an endpoint inside the spot's box. -/
theorem mem_spotEvents {g : Graph K} {spot : K × K × K} {radius : K} {i : ℕ}
    (h : i ∈ spotEvents g spot radius) :
    ∃ e ∈ g.edges, e.eid = i ∧
      (e.u ∈ nearby_nodes g spot.1 spot.2.1 radius ∨
       e.v ∈ nearby_nodes g spot.1 spot.2.1 radius) := by
  unfold spotEvents at h
  rw [List.mem_flatMap] at h
  obtain ⟨node, hnode, h⟩ := h
  rw [List.mem_flatMap] at h
  obtain ⟨m, _, h⟩ := h
  unfold get_edge_data at h
  rw [List.mem_map] at h
  obtain ⟨e, he, heid⟩ := h
  rw [List.mem_filter] at he
  refine ⟨e, he.1, heid, ?_⟩
  have := he.2
  simp only [Bool.or_eq_true, Bool.and_eq_true, decide_eq_true_eq] at this
  rcases this with ⟨hu, _⟩ | ⟨_, hv⟩
  · exact Or.inl (hu ▸ hnode)
  · exact Or.inr (hv ▸ hnode)

/-- Per-entry monotonicity of the adjustment: with nonnegative severities
a nonnegative `length` entry never decreases. -/
theorem adjust_length_ge (g : Graph K) (crime_locations : List (K × K × K))
    (radius : K) (hsev : ∀ spot ∈ crime_locations, 0 ≤ spot.2.2)
    (i : ℕ) (h0 : 0 ≤ g.attrs i "length") :
    g.attrs i "length" ≤ (adjust_weights_for_crime g crime_locations radius).attrs i "length" := by
  rw [adjust_attrs_apply, if_pos rfl]
  have h1 : 1 ≤ (crime_locations.map fun spot =>
      (1 + spot.2.2) ^ ((spotEvents g spot radius).count i)).prod := by
    apply one_le_list_prod
    intro x hx
    rw [List.mem_map] at hx
    obtain ⟨spot, hspot, rfl⟩ := hx
    have : (1 : K) ≤ 1 + spot.2.2 := by linarith [hsev spot hspot]
    exact one_le_pow₀ this
  exact le_mul_of_one_le_right h0 h1

/-- C1: for every graph (with the data model's nonnegative `length`
attributes), every crime-spot list whose severities are all nonnegative
and every radius, `adjust_weights_for_crime` never decreases any edge's
`length`: each qualifying edge is only multiplied by factors
`(1 + severity) ≥ 1`. -/
theorem adjust_weights_monotone (g : Graph K) (crime_locations : List (K × K × K))
    (radius : K) (hsev : ∀ spot ∈ crime_locations, 0 ≤ spot.2.2)
    (hlen : ∀ i, 0 ≤ g.attrs i "length") (i : ℕ) :
    g.attrs i "length" ≤ (adjust_weights_for_crime g crime_locations radius).attrs i "length" :=
  adjust_length_ge g crime_locations radius hsev i (hlen i)

/-- Concrete two-node road graph over `ℚ`: node `0` at `(x, y) = (0, 0)`,
node `1` at `(1, 0)`, one edge (key `0`) joining them, every attribute
entry equal to `100`.  A crime spot at `(lat, lon) = (0, 0)` with radius
`1` covers exactly node `0`. -/
def gQ : Graph ℚ :=
  { nodes := [⟨0, 0, 0⟩, ⟨1, 1, 0⟩]
    edges := [⟨0, 0, 1⟩]
    attrs := fun _ _ => 100 }

/-- Witness for C1 at a concrete input: the `length` of the edge of `gQ`
does not decrease under a severity-`1/2` spot covering node `0`. -/
theorem adjust_weights_monotone_witness :
    gQ.attrs 0 "length" ≤
      (adjust_weights_for_crime gQ [(0, 0, 1/2)] 1).attrs 0 "length" :=
  adjust_weights_monotone gQ [(0, 0, 1/2)] 1 (by norm_num) (fun i => by norm_num [gQ]) 0

/-- Evaluation of the event list of a spot at `(0, 0)` with radius `1` on
`gQ`: node `0` is the only nearby node, its one neighbour is `1`, and the
one parallel edge between them has key `0`. -/
theorem spotEvents_gQ (s : ℚ) : spotEvents gQ (0, 0, s) 1 = [0] := by
  norm_num [spotEvents, nearby_nodes, neighborsOf, get_edge_data, gQ, List.filter,
    List.dedup, List.flatMap]

/-- C3: the weight adjustment composes multiplicatively and is
order-independent.  First conjunct: on `gQ` (base length `100`), two crime
spots with severities `0.2` and `0.5` that both affect the edge yield
`100 × 1.2 × 1.5 = 180` exactly.  Second conjunct: for every graph and
every permutation of the crime-spot list, applying the spots in either
order yields the same attribute store. -/
theorem adjust_multiplicative_order_independent :
    ((adjust_weights_for_crime gQ [(0, 0, 1/5), (0, 0, 1/2)] 1).attrs 0 "length" = 180) ∧
    (∀ (K : Type) (_ : LinearOrderedField K) (g : Graph K)
        (spots1 spots2 : List (K × K × K)) (radius : K),
      spots1.Perm spots2 →
      ∀ i s, (adjust_weights_for_crime g spots1 radius).attrs i s =
        (adjust_weights_for_crime g spots2 radius).attrs i s) := by
  constructor
  · rw [adjust_attrs_apply]
    simp only [if_pos rfl, if_true, List.map_cons, List.map_nil, List.prod_cons,
      List.prod_nil, spotEvents_gQ]
    norm_num [gQ, List.count_cons, List.count_nil]
  · intro K _ g spots1 spots2 radius hperm i s
    rw [adjust_attrs_apply, adjust_attrs_apply]
    by_cases hs : s = "length"
    · subst hs
      simp only [if_pos rfl, if_true]
      exact congrArg (fun p => g.attrs i "length" * p)
        (List.Perm.prod_eq
          (hperm.map fun spot => (1 + spot.2.2) ^ ((spotEvents g spot radius).count i)))
    · simp [hs]

/-- Witness for C3's permutation hypothesis at a concrete input: swapping
the two spots of the first conjunct leaves every `length` unchanged. -/
theorem adjust_multiplicative_order_independent_witness :
    (adjust_weights_for_crime gQ [(0, 0, 1/5), (0, 0, 1/2)] 1).attrs 0 "length" =
      (adjust_weights_for_crime gQ [(0, 0, 1/2), (0, 0, 1/5)] 1).attrs 0 "length" :=
  adjust_multiplicative_order_independent.2 ℚ inferInstance gQ
    [(0, 0, 1/5), (0, 0, 1/2)] [(0, 0, 1/2), (0, 0, 1/5)] 1
    (List.Perm.swap (0, 0, 1/2) (0, 0, 1/5) []) 0 "length"

/-- C10: `adjust_weights_for_crime` only ever changes the `length`
attribute of edges incident to a node inside some crime spot's box: it
never adds or removes nodes or edges, never changes any attribute entry
other than `length`, and leaves the `length` of every edge key all of
whose edges are incident to no affected node unchanged.  (In-place
mutation is modelled by state passing: the returned graph is the input
graph with only these attribute entries updated.) -/
theorem adjust_frame (g : Graph K) (spots : List (K × K × K)) (radius : K) :
    (adjust_weights_for_crime g spots radius).nodes = g.nodes ∧
    (adjust_weights_for_crime g spots radius).edges = g.edges ∧
    (∀ i s, s ≠ "length" → (adjust_weights_for_crime g spots radius).attrs i s = g.attrs i s) ∧
    (∀ i, (∀ e ∈ g.edges, e.eid = i → ∀ spot ∈ spots,
        e.u ∉ nearby_nodes g spot.1 spot.2.1 radius ∧
        e.v ∉ nearby_nodes g spot.1 spot.2.1 radius) →
      (adjust_weights_for_crime g spots radius).attrs i "length" = g.attrs i "length") := by
  refine ⟨adjust_nodes g spots radius, adjust_edges g spots radius, ?_, ?_⟩
  · intro i s hs
    rw [adjust_attrs_apply, if_neg hs]
  · intro i hi
    rw [adjust_attrs_apply, if_pos rfl]
    have hone : (spots.map fun spot =>
        (1 + spot.2.2) ^ ((spotEvents g spot radius).count i)).prod = 1 := by
      apply List.prod_eq_one
      intro x hx
      rw [List.mem_map] at hx
      obtain ⟨spot, hspot, rfl⟩ := hx
      have hzero : (spotEvents g spot radius).count i = 0 := by
        rw [List.count_eq_zero]
        intro hmem
        obtain ⟨e, he, heid, hends⟩ := mem_spotEvents hmem
        have := hi e he heid spot hspot
        rcases hends with h | h
        · exact this.1 h
        · exact this.2 h
      rw [hzero, pow_zero]
    rw [hone, mul_one]

/-- Witness for C10 at a concrete input: an edge key that belongs to no
edge near the spot keeps its `length`, and the node list is unchanged. -/
theorem adjust_frame_witness :
    (adjust_weights_for_crime gQ [(0, 0, 1/2)] 1).attrs 5 "length" = gQ.attrs 5 "length" ∧
    (adjust_weights_for_crime gQ [(0, 0, 1/2)] 1).nodes = gQ.nodes :=
  ⟨(adjust_frame gQ [(0, 0, 1/2)] 1).2.2.2 5
      (by
        intro e he h5 spot hs
        exfalso
        simp only [gQ, List.mem_singleton] at he
        subst he
        simp at h5),
   (adjust_frame gQ [(0, 0, 1/2)] 1).1⟩

/-- Cost of one step of a route: the smallest `length` among the parallel
edges joining `u` and `v` (`0` when no edge exists; a route produced by
the path search only steps along existing edges). -/
def stepCost (g : Graph K) (u v : ℕ) : K :=
  match (get_edge_data g u v).map fun k => g.attrs k "length" with
  | [] => 0
  | c :: cs => cs.foldl min c

/-- Total `length`-weight of a node sequence. -/
def pathCost (g : Graph K) : List ℕ → K
  | u :: v :: rest => stepCost g u v + pathCost g (v :: rest)
  | _ => 0

/-- All simple paths from `u` to `t` that avoid `visited`, with at most
`fuel` further steps. -/
def simplePaths (g : Graph K) (fuel : ℕ) (u t : ℕ) (visited : List ℕ) : List (List ℕ) :=
  if u = t then [[t]]
  else
    match fuel with
    | 0 => []
    | f + 1 =>
      ((neighborsOf g u).filter fun m => !visited.contains m).flatMap fun m =>
        (simplePaths g f m t (u :: visited)).map fun p => u :: p

/-- First minimum-cost element of a list of candidate paths. -/
def argminCost (cost : List ℕ → K) : List (List ℕ) → Option (List ℕ)
  | [] => none
  | p :: ps => some (ps.foldl (fun best q => if cost q < cost best then q else best) p)

/-- Modelled from the path-search library's documented behavior:
`nx.astar_path(graph, s, t, heuristic, weight='length')` returns a
minimum-`length`-weight path from `s` to `t` (the haversine heuristic
used by `get_astar_route` is an admissible, consistent lower bound), and
raises `NetworkXNoPath` (`none` here) when `t` is unreachable.  Modelled
as the first minimum-cost simple path. -/
def astar_path (g : Graph K) (s t : ℕ) : Option (List ℕ) :=
  argminCost (pathCost g) (simplePaths g g.nodes.length s t [])

/-- Modelled from the OSMnx library's documented behavior:
`ox.distance.nearest_nodes(graph, X, Y)` returns the graph node nearest
to the query point `(X, Y) = (lon, lat)`; modelled as the first node
minimizing squared coordinate distance. -/
def nearest_nodes (g : Graph K) (lon lat : K) : ℕ :=
  match g.nodes with
  | [] => 0
  | nd :: rest =>
    (rest.foldl
      (fun best cand =>
        if (cand.x - lon) ^ 2 + (cand.y - lat) ^ 2 <
            (best.x - lon) ^ 2 + (best.y - lat) ^ 2 then cand
        else best)
      nd).id

/-- `get_astar_route(graph, start, end)` (route_calculations.py lines
96-108): snap `start = (lat, lon)` and `end` to their nearest graph nodes
and run A* with the haversine heuristic and the `length` edge weight. -/
def get_astar_route (graph : Graph K) (start stop : K × K) : Option (List ℕ) :=
  astar_path graph (nearest_nodes graph start.2 start.1) (nearest_nodes graph stop.2 stop.1)

/-- `calculate_route_distance(graph, route)` (route_calculations.py lines
111-116): sum `graph.get_edge_data(route[i], route[i+1])[0]['length']`
over consecutive route nodes (key `0` is the first parallel edge between
the pair; a missing edge, which would raise in Python, is modelled as
cost `0` and never arises on a returned route). -/
def calculate_route_distance (graph : Graph K) : List ℕ → K
  | u :: v :: rest =>
    (match get_edge_data graph u v with
      | [] => 0
      | k :: _ => graph.attrs k "length") + calculate_route_distance graph (v :: rest)
  | _ => 0

/-- The 4-node linear road graph A-B-C-D of the end-to-end scenario:
nodes `0..3` (A..D) at longitudes `0..3` on the equator, edge keys
`0, 1, 2` joining consecutive nodes, every `length` equal to `100`. -/
def gC4 : Graph ℚ :=
  { nodes := [⟨0, 0, 0⟩, ⟨1, 1, 0⟩, ⟨2, 2, 0⟩, ⟨3, 3, 0⟩]
    edges := [⟨0, 0, 1⟩, ⟨1, 1, 2⟩, ⟨2, 2, 3⟩]
    attrs := fun _ _ => 100 }

/-- C4: on the linear graph A-B-C-D with lengths `[100, 100, 100]`, a
single crime spot at B's coordinates with severity `0.5` and a radius
covering only B multiplies exactly the two edges touching B by `1.5`
(they become `150`, the third edge stays `100`); A* from A's coordinates
to D's coordinates on the adjusted graph returns `[A, B, C, D]` whose
`calculate_route_distance` is `400` on the adjusted graph, versus `300`
on the unadjusted graph. -/
theorem end_to_end_linear_graph :
    ((adjust_weights_for_crime gC4 [(0, 1, 1/2)] (1/2)).attrs 0 "length" = 150) ∧
    ((adjust_weights_for_crime gC4 [(0, 1, 1/2)] (1/2)).attrs 1 "length" = 150) ∧
    ((adjust_weights_for_crime gC4 [(0, 1, 1/2)] (1/2)).attrs 2 "length" = 100) ∧
    (get_astar_route (adjust_weights_for_crime gC4 [(0, 1, 1/2)] (1/2)) (0, 0) (0, 3) =
      some [0, 1, 2, 3]) ∧
    (calculate_route_distance (adjust_weights_for_crime gC4 [(0, 1, 1/2)] (1/2))
        [0, 1, 2, 3] = 400) ∧
    (calculate_route_distance gC4 [0, 1, 2, 3] = 300) := by
  have hev : spotEvents gC4 (0, 1, 1/2) (1/2) = [0, 1] := by
    norm_num [spotEvents, nearby_nodes, neighborsOf, get_edge_data, gC4, List.filter,
      List.dedup, List.flatMap]
  have h0 : (adjust_weights_for_crime gC4 [(0, 1, 1/2)] (1/2)).attrs 0 "length" = 150 := by
    rw [adjust_attrs_apply]
    simp only [if_pos rfl, if_true, List.map_cons, List.map_nil, List.prod_cons,
      List.prod_nil, hev]
    norm_num [gC4, List.count_cons, List.count_nil]
  have h1 : (adjust_weights_for_crime gC4 [(0, 1, 1/2)] (1/2)).attrs 1 "length" = 150 := by
    rw [adjust_attrs_apply]
    simp only [if_pos rfl, if_true, List.map_cons, List.map_nil, List.prod_cons,
      List.prod_nil, hev]
    norm_num [gC4, List.count_cons, List.count_nil]
  have h2 : (adjust_weights_for_crime gC4 [(0, 1, 1/2)] (1/2)).attrs 2 "length" = 100 := by
    rw [adjust_attrs_apply]
    simp only [if_pos rfl, if_true, List.map_cons, List.map_nil, List.prod_cons,
      List.prod_nil, hev]
    norm_num [gC4, List.count_cons, List.count_nil]
  refine ⟨h0, h1, h2, ?_, ?_, ?_⟩
  · unfold get_astar_route
    have hs : nearest_nodes (adjust_weights_for_crime gC4 [(0, 1, 1/2)] (1/2)) 0 0 = 0 := by
      norm_num [nearest_nodes, adjust_weights_for_crime, applySpot, gC4]
    have ht : nearest_nodes (adjust_weights_for_crime gC4 [(0, 1, 1/2)] (1/2)) 3 0 = 3 := by
      norm_num [nearest_nodes, adjust_weights_for_crime, applySpot, gC4]
    rw [hs, ht]
    have hpaths :
        simplePaths (adjust_weights_for_crime gC4 [(0, 1, 1/2)] (1/2))
          (adjust_weights_for_crime gC4 [(0, 1, 1/2)] (1/2)).nodes.length 0 3 [] =
        [[0, 1, 2, 3]] := by
      norm_num [simplePaths, neighborsOf, get_edge_data, adjust_weights_for_crime,
        applySpot, gC4, List.filter, List.dedup, List.flatMap]
    rw [astar_path, hpaths]
    rfl
  · have hged : ∀ u v, get_edge_data (adjust_weights_for_crime gC4 [(0, 1, 1/2)] (1/2)) u v =
        get_edge_data gC4 u v := fun u v => by
      unfold get_edge_data
      rw [adjust_edges]
    have e01 : get_edge_data gC4 0 1 = [0] := by norm_num [get_edge_data, gC4, List.filter]
    have e12 : get_edge_data gC4 1 2 = [1] := by norm_num [get_edge_data, gC4, List.filter]
    have e23 : get_edge_data gC4 2 3 = [2] := by norm_num [get_edge_data, gC4, List.filter]
    simp only [calculate_route_distance, hged, e01, e12, e23]
    rw [h0, h1, h2]
    norm_num
  · have e01 : get_edge_data gC4 0 1 = [0] := by norm_num [get_edge_data, gC4, List.filter]
    have e12 : get_edge_data gC4 1 2 = [1] := by norm_num [get_edge_data, gC4, List.filter]
    have e23 : get_edge_data gC4 2 3 = [2] := by norm_num [get_edge_data, gC4, List.filter]
    simp only [calculate_route_distance, e01, e12, e23]
    norm_num [gC4]

/-- Latitude (`graph.nodes[n]['y']`) of node `n` (0 when absent; the code
only queries nodes present in the graph). -/
def nodeY (g : Graph K) (n : ℕ) : K :=
  match g.nodes.find? fun nd => nd.id == n with
  | some nd => nd.y
  | none => 0

/-- Longitude (`graph.nodes[n]['x']`) of node `n`. -/
def nodeX (g : Graph K) (n : ℕ) : K :=
  match g.nodes.find? fun nd => nd.id == n with
  | some nd => nd.x
  | none => 0

/-- `sample_every = max(1, len(route) // 50)` (route_calculations.py
line 199, commented "Sample at most 50 points"). -/
def sample_every (n : ℕ) : ℕ := max 1 (n / 50)

/-- Python slice `l[::k]` for `k ≥ 1`: the elements whose index is a
multiple of `k`. -/
def pySliceEvery {α : Type} (l : List α) (k : ℕ) : List α :=
  (l.enum.filter fun p => decide (p.1 % k = 0)).map fun p => p.2

/-- `sampled_route = route[::sample_every]` (route_calculations.py
line 200). -/
def sampled_route {α : Type} (route : List α) : List α :=
  pySliceEvery route (sample_every route.length)

/-- C9 (code bug): a route of 99 nodes is not down-sampled at all —
`sample_every = max(1, 99 // 50) = 1`, so `sampled_route` keeps all 99
nodes, exceeding the claimed (and source-commented) bound of at most
about 50 evenly spaced sample points. -/
theorem sampled_route_99_nodes :
    sample_every (List.range 99).length = 1 ∧
    (sampled_route (List.range 99)).length = 99 ∧
    50 < (sampled_route (List.range 99)).length := by decide

/-- Modelled Python attribute lookup `obj.time` on a number: inside
`get_crime_severity_cached` the parameter `time` shadows the `time`
module, so `time.time()` is an attribute lookup on the numeric argument,
and Python numbers have no attribute `time` — it raises
`AttributeError`. -/
def numAttrTime (_obj : ℚ) : Except String ℚ :=
  .error "AttributeError"

/-- `get_crime_severity_cached(lat, lon, date, time, day)`
(route_calculations.py lines 119-134).  The module-level dict
`CRIME_SEVERITY_CACHE` (key → (insertion time, severity), TTL
`CRIME_CACHE_EXPIRY = 300` seconds) is passed and returned explicitly;
the black-box severity predictor `predict_crime_severity` (utils.py) is
an oracle parameter.  The `@lru_cache` wrapper memoizes successful
results only — it never caches a raised exception — so it does not
change the outcome of any single call and is not modelled further.  The
body computes the cache key, then evaluates `current_time = time.time()`
— an attribute lookup on the numeric parameter `time` — before any cache
read or write. -/
def get_crime_severity_cached (predict : ℚ → ℚ → ℚ → ℚ → ℚ → ℚ)
    (lat lon date time day : ℚ) (cache : List (String × ℚ × ℚ)) :
    Except String ℚ × List (String × ℚ × ℚ) :=
  let cache_key := toString lat ++ "_" ++ toString lon ++ "_" ++ toString date ++ "_" ++
    toString time ++ "_" ++ toString day
  match numAttrTime time with
  | .error e => (.error e, cache)
  | .ok current_time =>
    match cache.find? fun kv => kv.1 == cache_key with
    | some kv =>
      if current_time - kv.2.1 < 300 then (.ok kv.2.2, cache)
      else
        (.ok (predict lat lon date time day),
          (cache_key, current_time, predict lat lon date time day) ::
            cache.filter fun kv => kv.1 != cache_key)
    | none =>
      (.ok (predict lat lon date time day),
        (cache_key, current_time, predict lat lon date time day) ::
          cache.filter fun kv => kv.1 != cache_key)

/-- Every call to the severity cache raises: the `time.time()` lookup on
the shadowing numeric parameter fails before any cache access, and the
cache is left untouched. -/
theorem get_crime_severity_cached_raises (predict : ℚ → ℚ → ℚ → ℚ → ℚ → ℚ)
    (lat lon date time day : ℚ) (cache : List (String × ℚ × ℚ)) :
    get_crime_severity_cached predict lat lon date time day cache =
      (.error "AttributeError", cache) := rfl

/-- C5 (code bug): no call to `get_crime_severity_cached` ever returns a
severity — cached or fresh.  The parameter `time` shadows the `time`
module, so `current_time = time.time()` raises `AttributeError` on every
call (and `@lru_cache` does not memoize exceptions), hence the TTL logic
never runs, nothing is ever stored, and repeated calls never hit the
cache. -/
theorem severity_cache_always_raises (predict : ℚ → ℚ → ℚ → ℚ → ℚ → ℚ)
    (lat lon date time day : ℚ) (cache : List (String × ℚ × ℚ)) :
    get_crime_severity_cached predict lat lon date time day cache =
      (.error "AttributeError", cache) ∧
    (get_crime_severity_cached predict lat lon date time day cache).2 = cache := ⟨rfl, rfl⟩

/-- `get_dynamic_crime_spots(crime_locations, date, time, day)`
(route_calculations.py lines 136-155) over an abstract per-spot severity
lookup (the source calls `get_crime_severity_cached(lat, lon, date, time,
day)`; `get_dynamic_crime_spots_impl` below instantiates it).  Each spot
is submitted to a worker pool; per completed future, a successful result
is appended and a raised exception is logged and the spot skipped.
Completion order is modelled as submission order; the shared cache is
threaded through the lookups in that order. -/
def get_dynamic_crime_spots (lookup : ℚ → ℚ → List (String × ℚ × ℚ) →
      Except String ℚ × List (String × ℚ × ℚ))
    (crime_locations : List (ℚ × ℚ)) (cache : List (String × ℚ × ℚ)) :
    List (ℚ × ℚ × ℚ) × List (String × ℚ × ℚ) :=
  crime_locations.foldl
    (fun acc spot =>
      match lookup spot.1 spot.2 acc.2 with
      | (.ok severity, cache') => (acc.1 ++ [(spot.1, spot.2, severity)], cache')
      | (.error _, cache') => (acc.1, cache'))
    ([], cache)

/-- `get_dynamic_crime_spots` with the severity lookup the source
actually uses. -/
def get_dynamic_crime_spots_impl (predict : ℚ → ℚ → ℚ → ℚ → ℚ → ℚ)
    (crime_locations : List (ℚ × ℚ)) (date time day : ℚ)
    (cache : List (String × ℚ × ℚ)) :
    List (ℚ × ℚ × ℚ) × List (String × ℚ × ℚ) :=
  get_dynamic_crime_spots
    (fun lat lon c => get_crime_severity_cached predict lat lon date time day c)
    crime_locations cache

/-- C6 counterexample: with the predictor returning the lowest severity
tier `0.1`, the single spot `(1, 2)` yields no `(lat, lon, severity)`
triple at all — the severity lookup raises and the spot is dropped, no
fallback severity is substituted. -/
theorem dynamic_spots_no_triple_for_failed_spot :
    ¬ ∃ s : ℚ, ((1 : ℚ), (2 : ℚ), s) ∈
      (get_dynamic_crime_spots_impl (fun _ _ _ _ _ => 1/10) [(1, 2)] 0 0 0 []).1 := by
  intro h
  obtain ⟨s, hs⟩ := h
  have : (get_dynamic_crime_spots_impl (fun _ _ _ _ _ => 1/10) [(1, 2)] 0 0 0 []).1 =
      [] := rfl
  rw [this] at hs
  exact List.not_mem_nil _ hs

/-- Closed form of the batch over a lookup that does not touch the cache:
successful spots are kept in order, failing spots are dropped, the cache
is returned unchanged. -/
theorem get_dynamic_crime_spots_stateless (f : ℚ → ℚ → Except String ℚ)
    (spots : List (ℚ × ℚ)) (cache : List (String × ℚ × ℚ)) :
    get_dynamic_crime_spots (fun lat lon c => (f lat lon, c)) spots cache =
      (spots.filterMap fun p =>
        match f p.1 p.2 with
        | .ok s => some (p.1, p.2, s)
        | .error _ => none, cache) := by
  unfold get_dynamic_crime_spots
  suffices h : ∀ acc0 : List (ℚ × ℚ × ℚ),
      spots.foldl
        (fun acc spot =>
          match (fun lat lon (c : List (String × ℚ × ℚ)) => (f lat lon, c))
              spot.1 spot.2 acc.2 with
          | (.ok severity, cache') => (acc.1 ++ [(spot.1, spot.2, severity)], cache')
          | (.error _, cache') => (acc.1, cache'))
        (acc0, cache) =
      (acc0 ++ spots.filterMap (fun p =>
        match f p.1 p.2 with
        | .ok s => some (p.1, p.2, s)
        | .error _ => none), cache) by
    simpa using h []
  induction spots with
  | nil => intro acc0; simp
  | cons p rest ih =>
    intro acc0
    simp only [List.foldl_cons, List.filterMap_cons]
    cases hf : f p.1 p.2 with
    | ok s =>
      simp only [hf]
      rw [ih (acc0 ++ [(p.1, p.2, s)])]
      simp
    | error e =>
      simp only [hf]
      exact ih acc0

/-- C6 (amended): a spot whose severity lookup raises is omitted from the
result — no fallback severity is substituted and nothing is written to
the cache for it — while the batch is never aborted: every spot whose
lookup succeeds still yields its `(lat, lon, severity)` triple.  (With
the severity lookup of the current source every lookup raises, so the
result list is always empty and the cache is returned unchanged.) -/
theorem dynamic_spots_skip_failed_keep_rest :
    (∀ (f : ℚ → ℚ → Except String ℚ) (spots : List (ℚ × ℚ))
        (cache : List (String × ℚ × ℚ)),
      (get_dynamic_crime_spots (fun lat lon c => (f lat lon, c)) spots cache).1 =
        spots.filterMap (fun p =>
          match f p.1 p.2 with
          | .ok s => some (p.1, p.2, s)
          | .error _ => none) ∧
      (get_dynamic_crime_spots (fun lat lon c => (f lat lon, c)) spots cache).2 = cache) ∧
    (∀ (predict : ℚ → ℚ → ℚ → ℚ → ℚ → ℚ) (spots : List (ℚ × ℚ)) (date time day : ℚ)
        (cache : List (String × ℚ × ℚ)),
      get_dynamic_crime_spots_impl predict spots date time day cache = ([], cache)) := by
  constructor
  · intro f spots cache
    rw [get_dynamic_crime_spots_stateless]
    exact ⟨rfl, rfl⟩
  · intro predict spots date time day cache
    have hfun : (fun lat lon c => get_crime_severity_cached predict lat lon date time day c) =
        fun (lat lon : ℚ) (c : List (String × ℚ × ℚ)) =>
          ((fun (_ _ : ℚ) => (Except.error "AttributeError" : Except String ℚ)) lat lon, c) := by
      funext lat lon c
      exact get_crime_severity_cached_raises predict lat lon date time day c
    unfold get_dynamic_crime_spots_impl
    rw [hfun, get_dynamic_crime_spots_stateless]
    simp

/-- One row of the preprocessed crime dataset as consumed by
`get_route_crime_details`: coordinates, the parsed occurrence timestamp
(`none` models a `NaT` from `pd.to_datetime(..., errors='coerce')`, in
seconds otherwise), the weekday of that timestamp, and the value of the
`crime type` column when the row has one. -/
structure CrimeRecord where
  latitude : ℚ
  longitude : ℚ
  date : Option ℚ
  weekday : ℚ
  crime_type : Option String

/-- The severity-dependent lookback windows of `get_route_crime_details`
(route_calculations.py lines 203-209), in seconds
(`timedelta(weeks=w)` = `w * 604800` seconds), with
`time_ranges.get(severity, time_ranges[0.0])` defaulting to the 6-week
window. -/
def time_ranges (severity : ℚ) : ℚ :=
  if severity = 0 then 6 * 604800
  else if severity = 1/5 then 12 * 604800
  else if severity = 1/2 then 18 * 604800
  else if severity = 7/10 then 24 * 604800
  else if severity = 1 then 36 * 604800
  else 6 * 604800

/-- `crime_types.add(crime['crime type'])` on the running set of labels
(a Python `set`, modelled as a duplicate-free list in insertion order);
a row without the column adds nothing. -/
def addCrimeType (types : List String) : Option String → List String
  | some t => if types.contains t then types else types ++ [t]
  | none => types

/-- Inner loop of `get_route_crime_details` (lines 228-245): for every
nearby crime row with a parsed date, look up its severity through
`get_crime_severity_cached(lat, lon, date.timestamp(), 0, date.weekday())`
— a raised exception aborts the whole `try` block — and accumulate
severity and crime type when the row is inside its lookback window.
State is `(total_severity, crime_types, severity cache)`. -/
def scanCrimes (predict : ℚ → ℚ → ℚ → ℚ → ℚ → ℚ) (current_date : ℚ)
    (st : ℚ × List String × List (String × ℚ × ℚ)) :
    List CrimeRecord → Except String (ℚ × List String × List (String × ℚ × ℚ))
  | [] => .ok st
  | crime :: rest =>
    match crime.date with
    | none => scanCrimes predict current_date st rest
    | some ts =>
      match get_crime_severity_cached predict crime.latitude crime.longitude ts 0
          crime.weekday st.2.2 with
      | (.error e, _) => .error e
      | (.ok severity, cache') =>
        if current_date - time_ranges severity ≤ ts then
          scanCrimes predict current_date
            (st.1 + severity, addCrimeType st.2.1 crime.crime_type, cache') rest
        else
          scanCrimes predict current_date (st.1, st.2.1, cache') rest

/-- Outer loop of `get_route_crime_details` (lines 213-225) over the
sampled route nodes: filter the crime rows by the axis-aligned box test
around each sampled node's coordinates and run the inner accumulation.
(The `batch_size = 10` chunking of the source only groups consecutive
iterations of this same loop and does not change the visiting order.) -/
def scanNodes (g : Graph ℚ) (crime_data : List CrimeRecord) (radius : ℚ)
    (predict : ℚ → ℚ → ℚ → ℚ → ℚ → ℚ) (current_date : ℚ)
    (st : ℚ × List String × List (String × ℚ × ℚ)) :
    List ℕ → Except String (ℚ × List String × List (String × ℚ × ℚ))
  | [] => .ok st
  | node :: rest =>
    match scanCrimes predict current_date st
        (crime_data.filter fun c =>
          decide (|c.latitude - nodeY g node| < radius) &&
          decide (|c.longitude - nodeX g node| < radius)) with
    | .error e => .error e
    | .ok st' => scanNodes g crime_data radius predict current_date st' rest

/-- `get_route_crime_details(graph, route, crime_data, radius)`
(route_calculations.py lines 185-252): sample the route, accumulate
severity and crime types over nearby recent crimes, and return
`(min(total_severity, 100), list(crime_types))`; any exception inside the
`try` block is logged and `(0, [])` returned.  `datetime.now()` is the
explicit `current_date` parameter; the severity predictor and the
process-wide severity cache are explicit as in
`get_crime_severity_cached`. -/
def get_route_crime_details (graph : Graph ℚ) (route : List ℕ)
    (crime_data : List CrimeRecord) (radius : ℚ) (current_date : ℚ)
    (predict : ℚ → ℚ → ℚ → ℚ → ℚ → ℚ) (cache : List (String × ℚ × ℚ)) :
    ℚ × List String :=
  match scanNodes graph crime_data radius predict current_date (0, [], cache)
      (sampled_route route) with
  | .ok st => (min st.1 100, st.2.1)
  | .error _ => (0, [])

/-- One-node graph at the origin for the C8 failing input. -/
def g1 : Graph ℚ :=
  { nodes := [⟨0, 0, 0⟩]
    edges := []
    attrs := fun _ _ => 100 }

/-- A crime row at the origin: freshly occurred (timestamp `0`), of type
`Theft`. -/
def crimeRec1 : CrimeRecord :=
  { latitude := 0
    longitude := 0
    date := some 0
    weekday := 0
    crime_type := some "Theft" }

/-- C8 (code bug): on a route through a node with one fresh nearby crime
of type `Theft` (predictor severity `0.5`), `get_route_crime_details`
returns `(0, [])` — the severity lookup raises `AttributeError`
(`time`-parameter shadowing in `get_crime_severity_cached`), the `except`
branch swallows the whole accumulation, and neither the accumulated
severity nor the crime-type set is reported. -/
theorem route_crime_details_zero_on_failing_input :
    get_route_crime_details g1 [0] [crimeRec1] 1 0 (fun _ _ _ _ _ => 1/2) [] = (0, []) := by
  have hsamp : sampled_route [0] = [0] := rfl
  unfold get_route_crime_details
  rw [hsamp]
  have hY : nodeY g1 0 = 0 := rfl
  have hX : nodeX g1 0 = 0 := rfl
  have hfilter : [crimeRec1].filter (fun c =>
      decide (|c.latitude - nodeY g1 0| < 1) &&
      decide (|c.longitude - nodeX g1 0| < 1)) = [crimeRec1] := by
    rw [hY, hX]
    norm_num [crimeRec1, List.filter]
  unfold scanNodes
  rw [hfilter]
  unfold scanCrimes
  simp [show crimeRec1.date = some 0 from rfl, get_crime_severity_cached_raises]

/-- Python local-variable read: a name assigned anywhere in a function
body is local to the whole body, and reading it before its first
assignment raises `UnboundLocalError`.  `locals` is the set of local
bindings made so far. -/
def readLocal (locals : List (String × ℚ)) (name : String) : Except String ℚ :=
  match locals.find? fun kv => kv.1 == name with
  | some kv => .ok kv.2
  | none => .error ("UnboundLocalError: " ++ name)

/-- Outcome of a `/generate_routes` request as seen by the caller. -/
inductive RouteGenOutcome where
  | routesMap (routes : List (String × List ℕ × ℚ))
  | noRouteFlash
  | inputErrorFlash (msg : String)
  deriving Repr, DecidableEq

/-- Result-set assembly of `generate_routes` (app.py lines 155-222): each
variant that produced a result is added under its name; if no variant
succeeded the user is flashed "No routes could be generated between these
locations"; otherwise the populated mapping is returned.  A variant's
entry is `none` when its search found no path, raised, or overran its
sub-deadline (`calculate_route_with_timeout` returns `None` in all those
cases, and a variant is also skipped when the overall deadline budget is
exhausted). -/
def assemble_routes (fastest safest optimized : Option (List ℕ × ℚ)) : RouteGenOutcome :=
  let routes :=
    (match fastest with | some r => [("Fastest", r)] | none => []) ++
    (match safest with | some r => [("Safest", r)] | none => []) ++
    (match optimized with | some r => [("Optimized", r)] | none => [])
  if routes.isEmpty then .noRouteFlash else .routesMap routes

/-- `generate_routes()` (app.py lines 103-236).  Geocoding and the three
per-variant searches are oracle parameters (external collaborators).  The
assignment `time = now.hour` at line 152 makes `time` a local name for
the entire function body, and app.py never imports the `time` module; the
very first statement, `start_time = time.time()` (line 105), therefore
reads the local `time` before any assignment.  That statement precedes
the `try:` of line 108, so the resulting `UnboundLocalError` propagates
out of the view function (an HTTP 500), which the `Except.error` result
models; the remainder of the body is the modelled continuation. -/
def generate_routes (start_place end_place : String)
    (geocode : String → Except String (ℚ × ℚ))
    (fastest safest optimized : Option (List ℕ × ℚ)) :
    Except String RouteGenOutcome := do
  let _start_time ← readLocal [] "time"
  if start_place = "" ∨ end_place = "" then
    pure (.inputErrorFlash "Please enter both start and end locations")
  else
    match geocode start_place, geocode end_place with
    | .error e, _ => pure (.inputErrorFlash e)
    | .ok _, .error e => pure (.inputErrorFlash e)
    | .ok _, .ok _ => pure (assemble_routes fastest safest optimized)

/-- The result-set assembly the source intends (and the claim describes)
does hold of the unreachable continuation: a mapping containing exactly
the successful variants, the no-route flash exactly when all three
failed. -/
theorem assemble_routes_spec (fastest safest optimized : Option (List ℕ × ℚ)) :
    (fastest = none ∧ safest = none ∧ optimized = none →
      assemble_routes fastest safest optimized = .noRouteFlash) ∧
    (∀ r, fastest = some r → safest = none → optimized = none →
      assemble_routes fastest safest optimized = .routesMap [("Fastest", r)]) := by
  constructor
  · rintro ⟨rfl, rfl, rfl⟩
    rfl
  · rintro r rfl rfl rfl
    rfl

/-- C7 (code bug): every request to `generate_routes` fails with
`UnboundLocalError` on its first statement — the caller never receives a
mapping of successful variants, nor the explicit "no route available"
outcome, no matter how the geocoder and the three variant searches would
have behaved. -/
theorem generate_routes_unbound_local (start_place end_place : String)
    (geocode : String → Except String (ℚ × ℚ))
    (fastest safest optimized : Option (List ℕ × ℚ)) :
    generate_routes start_place end_place geocode fastest safest optimized =
      .error "UnboundLocalError: time" := rfl

/-- Model of C's `atan2(y, x)` as called by `math.atan2`: the angle of
the point `(x, y)`, in `(-π, π]`, with `atan2(0, 0) = 0`. -/
noncomputable def atan2 (y x : ℝ) : ℝ :=
  if 0 < x then Real.arctan (y / x)
  else if x < 0 then
    (if 0 ≤ y then Real.arctan (y / x) + Real.pi else Real.arctan (y / x) - Real.pi)
  else
    (if 0 < y then Real.pi / 2 else if y < 0 then -(Real.pi / 2) else 0)

/-- `math.radians`: degrees to radians. -/
noncomputable def radians (deg : ℝ) : ℝ := deg * (Real.pi / 180)

/-- The intermediate `a` of `haversine` (route_calculations.py line 91):
`sin(dlat/2)**2 + cos(lat1) * cos(lat2) * sin(dlon/2)**2` after the
degree-to-radian conversion of line 88. -/
noncomputable def hav_a (lat1 lon1 lat2 lon2 : ℝ) : ℝ :=
  Real.sin ((radians lat2 - radians lat1) / 2) ^ 2 +
    Real.cos (radians lat1) * Real.cos (radians lat2) *
      Real.sin ((radians lon2 - radians lon1) / 2) ^ 2

/-- `haversine(lat1, lon1, lat2, lon2)` (route_calculations.py lines
86-93): `R * c` with `R = 6371.0` kilometers and
`c = 2 * atan2(sqrt(a), sqrt(1 - a))`. -/
noncomputable def haversine (lat1 lon1 lat2 lon2 : ℝ) : ℝ :=
  6371 * (2 * atan2 (Real.sqrt (hav_a lat1 lon1 lat2 lon2))
    (Real.sqrt (1 - hav_a lat1 lon1 lat2 lon2)))

/-- Cosine of the central angle between the points `(l1, n1)` and
`(l2, n2)` given in radians (the inner product of the corresponding unit
vectors on the sphere). -/
noncomputable def cosCentral (l1 n1 l2 n2 : ℝ) : ℝ :=
  Real.sin l1 * Real.sin l2 + Real.cos l1 * Real.cos l2 * Real.cos (n1 - n2)

/-- Half-angle identity for the squared sine. -/
theorem sin_sq_half_eq (θ : ℝ) : Real.sin (θ / 2) ^ 2 = (1 - Real.cos θ) / 2 := by
  have h := Real.cos_two_mul (θ / 2)
  have h2 := Real.sin_sq_add_cos_sq (θ / 2)
  have h3 : 2 * (θ / 2) = θ := by ring
  rw [h3] at h
  linarith

/-- The haversine intermediate equals `(1 - cos central) / 2`. -/
theorem hav_a_eq (lat1 lon1 lat2 lon2 : ℝ) :
    hav_a lat1 lon1 lat2 lon2 =
      (1 - cosCentral (radians lat1) (radians lon1) (radians lat2) (radians lon2)) / 2 := by
  unfold hav_a cosCentral
  rw [sin_sq_half_eq, sin_sq_half_eq,
    Real.cos_sub (radians lat2) (radians lat1),
    Real.cos_sub (radians lon2) (radians lon1),
    show radians lon1 - radians lon2 = -(radians lon2 - radians lon1) from by ring,
    Real.cos_neg, Real.cos_sub (radians lon2) (radians lon1)]
  ring

/-- The central-angle cosine lies in `[-1, 1]`. -/
theorem abs_cosCentral_le_one (l1 n1 l2 n2 : ℝ) : |cosCentral l1 n1 l2 n2| ≤ 1 := by
  unfold cosCentral
  have p1 := Real.sin_sq_add_cos_sq l1
  have p2 := Real.sin_sq_add_cos_sq l2
  have pc : Real.cos (n1 - n2) ≤ 1 := Real.cos_le_one _
  have pc' : -1 ≤ Real.cos (n1 - n2) := Real.neg_one_le_cos _
  have hsq : (Real.sin l1 * Real.sin l2 + Real.cos l1 * Real.cos l2 * Real.cos (n1 - n2)) ^ 2
      ≤ 1 := by
    nlinarith [sq_nonneg (Real.sin l1 * (Real.cos l2 * Real.cos (n1 - n2)) -
        Real.cos l1 * Real.sin l2),
      sq_nonneg (Real.cos l2), sq_nonneg (Real.cos l1),
      mul_nonneg (sq_nonneg (Real.cos l2))
        (by nlinarith : (0 : ℝ) ≤ 1 - Real.cos (n1 - n2) ^ 2)]
  exact (sq_le_one_iff_abs_le_one _).mp hsq

/-- For `a ∈ [0, 1]`, the haversine angle formula
`2 * atan2(√a, √(1-a))` equals `arccos(1 - 2a)`. -/
theorem two_atan2_sqrt_eq_arccos {a : ℝ} (h0 : 0 ≤ a) (h1 : a ≤ 1) :
    2 * atan2 (Real.sqrt a) (Real.sqrt (1 - a)) = Real.arccos (1 - 2 * a) := by
  rcases lt_or_eq_of_le h1 with hlt | heq
  · have hx : 0 < Real.sqrt (1 - a) := Real.sqrt_pos.mpr (by linarith)
    unfold atan2
    rw [if_pos hx]
    have hs0 : 0 ≤ Real.sqrt a := Real.sqrt_nonneg a
    have hsa : Real.sqrt a < 1 := by
      rw [show (1 : ℝ) = Real.sqrt 1 from (Real.sqrt_one).symm]
      exact Real.sqrt_lt_sqrt h0 (by linarith)
    have hmem : Real.sqrt a ∈ Set.Ioo (-(1 : ℝ)) 1 := ⟨by linarith, hsa⟩
    have harcsin := Real.arcsin_eq_arctan hmem
    rw [Real.sq_sqrt h0] at harcsin
    rw [← harcsin]
    have hsin : Real.sin (Real.arcsin (Real.sqrt a)) = Real.sqrt a :=
      Real.sin_arcsin (by linarith) (le_of_lt hsa)
    have hcos : Real.cos (2 * Real.arcsin (Real.sqrt a)) = 1 - 2 * a := by
      have hc := Real.cos_two_mul (Real.arcsin (Real.sqrt a))
      have hp := Real.sin_sq_add_cos_sq (Real.arcsin (Real.sqrt a))
      have : Real.sin (Real.arcsin (Real.sqrt a)) ^ 2 = a := by
        rw [hsin]
        exact Real.sq_sqrt h0
      nlinarith
    have hlo : 0 ≤ 2 * Real.arcsin (Real.sqrt a) := by
      have := Real.arcsin_nonneg.mpr hs0
      linarith
    have hhi : 2 * Real.arcsin (Real.sqrt a) ≤ Real.pi := by
      have := Real.arcsin_le_pi_div_two (Real.sqrt a)
      linarith
    rw [← hcos, Real.arccos_cos hlo hhi]
  · subst heq
    rw [show (1 : ℝ) - 1 = 0 from by ring, Real.sqrt_zero, Real.sqrt_one]
    unfold atan2
    norm_num
    ring_nf

/-- The haversine distance is Earth's radius times the central angle. -/
theorem haversine_eq_arccos (lat1 lon1 lat2 lon2 : ℝ) :
    haversine lat1 lon1 lat2 lon2 =
      6371 * Real.arccos
        (cosCentral (radians lat1) (radians lon1) (radians lat2) (radians lon2)) := by
  have habs := abs_cosCentral_le_one (radians lat1) (radians lon1) (radians lat2) (radians lon2)
  rw [abs_le] at habs
  have h0 : 0 ≤ hav_a lat1 lon1 lat2 lon2 := by
    rw [hav_a_eq]
    linarith [habs.2]
  have h1 : hav_a lat1 lon1 lat2 lon2 ≤ 1 := by
    rw [hav_a_eq]
    linarith [habs.1]
  unfold haversine
  rw [two_atan2_sqrt_eq_arccos h0 h1, hav_a_eq]
  congr 1
  ring

/-- Cauchy-Schwarz for triples of reals (Lagrange's identity). -/
theorem lagrange3 (x1 x2 x3 z1 z2 z3 : ℝ) :
    (x1 * z1 + x2 * z2 + x3 * z3) ^ 2 ≤
      (x1 ^ 2 + x2 ^ 2 + x3 ^ 2) * (z1 ^ 2 + z2 ^ 2 + z3 ^ 2) := by
  nlinarith [sq_nonneg (x1 * z2 - x2 * z1), sq_nonneg (x1 * z3 - x3 * z1),
    sq_nonneg (x2 * z3 - x3 * z2)]

/-- Gram-matrix inequality for three unit vectors of `ℝ³`: with
`a = ⟨p, q⟩`, `b = ⟨q, r⟩`, `c = ⟨p, r⟩`,
`(c - a b)² ≤ (1 - a²)(1 - b²)`. -/
theorem gram3 (p1 p2 p3 q1 q2 q3 r1 r2 r3 a b c : ℝ)
    (hp : p1 ^ 2 + p2 ^ 2 + p3 ^ 2 = 1) (hq : q1 ^ 2 + q2 ^ 2 + q3 ^ 2 = 1)
    (hr : r1 ^ 2 + r2 ^ 2 + r3 ^ 2 = 1)
    (ha : a = p1 * q1 + p2 * q2 + p3 * q3) (hb : b = q1 * r1 + q2 * r2 + q3 * r3)
    (hc : c = p1 * r1 + p2 * r2 + p3 * r3) :
    (c - a * b) ^ 2 ≤ (1 - a ^ 2) * (1 - b ^ 2) := by
  have key := lagrange3 (p1 - a * q1) (p2 - a * q2) (p3 - a * q3)
    (r1 - b * q1) (r2 - b * q2) (r3 - b * q3)
  have hXZ : (p1 - a * q1) * (r1 - b * q1) + (p2 - a * q2) * (r2 - b * q2) +
      (p3 - a * q3) * (r3 - b * q3) = c - a * b := by
    subst ha hb hc
    linear_combination (p1 * q1 + p2 * q2 + p3 * q3) * (q1 * r1 + q2 * r2 + q3 * r3) * hq
  have hXX : (p1 - a * q1) ^ 2 + (p2 - a * q2) ^ 2 + (p3 - a * q3) ^ 2 = 1 - a ^ 2 := by
    subst ha
    linear_combination hp + (p1 * q1 + p2 * q2 + p3 * q3) ^ 2 * hq
  have hZZ : (r1 - b * q1) ^ 2 + (r2 - b * q2) ^ 2 + (r3 - b * q3) ^ 2 = 1 - b ^ 2 := by
    subst hb
    linear_combination hr + (q1 * r1 + q2 * r2 + q3 * r3) ^ 2 * hq
  rw [hXZ, hXX, hZZ] at key
  exact key

/-- The point `(l, n)` of the unit sphere has a unit coordinate vector. -/
theorem unit_sphere_coords (l n : ℝ) :
    (Real.cos l * Real.cos n) ^ 2 + (Real.cos l * Real.sin n) ^ 2 + Real.sin l ^ 2 = 1 := by
  have h1 := Real.sin_sq_add_cos_sq l
  have h2 := Real.sin_sq_add_cos_sq n
  nlinarith

/-- The central-angle cosine is the dot product of the coordinate
vectors. -/
theorem cosCentral_eq_dot (la na lb nb : ℝ) :
    cosCentral la na lb nb =
      (Real.cos la * Real.cos na) * (Real.cos lb * Real.cos nb) +
      (Real.cos la * Real.sin na) * (Real.cos lb * Real.sin nb) +
      Real.sin la * Real.sin lb := by
  unfold cosCentral
  rw [Real.cos_sub]
  ring

/-- `arccos` is antitone. -/
theorem arccos_antitone {x y : ℝ} (h : x ≤ y) : Real.arccos y ≤ Real.arccos x := by
  unfold Real.arccos
  have := Real.monotone_arcsin h
  linarith

/-- Spherical triangle inequality for the central angle. -/
theorem arccos_cosCentral_triangle (l1 n1 l2 n2 l3 n3 : ℝ) :
    Real.arccos (cosCentral l1 n1 l3 n3) ≤
      Real.arccos (cosCentral l1 n1 l2 n2) + Real.arccos (cosCentral l2 n2 l3 n3) := by
  have ha := abs_cosCentral_le_one l1 n1 l2 n2
  have hb := abs_cosCentral_le_one l2 n2 l3 n3
  rw [abs_le] at ha hb
  have hkey : (cosCentral l1 n1 l3 n3 -
      cosCentral l1 n1 l2 n2 * cosCentral l2 n2 l3 n3) ^ 2 ≤
      (1 - cosCentral l1 n1 l2 n2 ^ 2) * (1 - cosCentral l2 n2 l3 n3 ^ 2) :=
    gram3 (Real.cos l1 * Real.cos n1) (Real.cos l1 * Real.sin n1) (Real.sin l1)
      (Real.cos l2 * Real.cos n2) (Real.cos l2 * Real.sin n2) (Real.sin l2)
      (Real.cos l3 * Real.cos n3) (Real.cos l3 * Real.sin n3) (Real.sin l3)
      _ _ _
      (unit_sphere_coords l1 n1) (unit_sphere_coords l2 n2) (unit_sphere_coords l3 n3)
      (cosCentral_eq_dot l1 n1 l2 n2) (cosCentral_eq_dot l2 n2 l3 n3)
      (cosCentral_eq_dot l1 n1 l3 n3)
  by_cases hS : Real.arccos (cosCentral l1 n1 l2 n2) +
      Real.arccos (cosCentral l2 n2 l3 n3) ≤ Real.pi
  · have h1sq : (0 : ℝ) ≤ 1 - cosCentral l1 n1 l2 n2 ^ 2 := by nlinarith [ha.1, ha.2]
    have h2sq : (0 : ℝ) ≤ 1 - cosCentral l2 n2 l3 n3 ^ 2 := by nlinarith [hb.1, hb.2]
    have hcosS : Real.cos (Real.arccos (cosCentral l1 n1 l2 n2) +
        Real.arccos (cosCentral l2 n2 l3 n3)) =
        cosCentral l1 n1 l2 n2 * cosCentral l2 n2 l3 n3 -
          Real.sqrt (1 - cosCentral l1 n1 l2 n2 ^ 2) *
            Real.sqrt (1 - cosCentral l2 n2 l3 n3 ^ 2) := by
      rw [Real.cos_add, Real.cos_arccos ha.1 ha.2, Real.cos_arccos hb.1 hb.2,
        Real.sin_arccos, Real.sin_arccos]
    have hsqrt : Real.sqrt ((cosCentral l1 n1 l3 n3 -
        cosCentral l1 n1 l2 n2 * cosCentral l2 n2 l3 n3) ^ 2) ≤
        Real.sqrt ((1 - cosCentral l1 n1 l2 n2 ^ 2) * (1 - cosCentral l2 n2 l3 n3 ^ 2)) :=
      Real.sqrt_le_sqrt hkey
    rw [Real.sqrt_sq_eq_abs, Real.sqrt_mul h1sq] at hsqrt
    have habs : cosCentral l1 n1 l2 n2 * cosCentral l2 n2 l3 n3 - cosCentral l1 n1 l3 n3 ≤
        |cosCentral l1 n1 l3 n3 - cosCentral l1 n1 l2 n2 * cosCentral l2 n2 l3 n3| := by
      rw [abs_sub_comm]
      exact le_abs_self _
    have hcmp : Real.cos (Real.arccos (cosCentral l1 n1 l2 n2) +
        Real.arccos (cosCentral l2 n2 l3 n3)) ≤ cosCentral l1 n1 l3 n3 := by
      rw [hcosS]
      linarith
    have hmono := arccos_antitone hcmp
    have hS0 : 0 ≤ Real.arccos (cosCentral l1 n1 l2 n2) +
        Real.arccos (cosCentral l2 n2 l3 n3) :=
      add_nonneg (Real.arccos_nonneg _) (Real.arccos_nonneg _)
    rw [Real.arccos_cos hS0 hS] at hmono
    exact hmono
  · have := Real.arccos_le_pi (cosCentral l1 n1 l3 n3)
    linarith

/-- Triangle inequality for the haversine distance. -/
theorem haversine_triangle (lat1 lon1 lat2 lon2 lat3 lon3 : ℝ) :
    haversine lat1 lon1 lat3 lon3 ≤
      haversine lat1 lon1 lat2 lon2 + haversine lat2 lon2 lat3 lon3 := by
  rw [haversine_eq_arccos, haversine_eq_arccos, haversine_eq_arccos]
  have := arccos_cosCentral_triangle (radians lat1) (radians lon1) (radians lat2)
    (radians lon2) (radians lat3) (radians lon3)
  linarith

/-- The haversine distance from a point to itself is zero. -/
theorem haversine_self (lat lon : ℝ) : haversine lat lon lat lon = 0 := by
  rw [haversine_eq_arccos]
  have hone : cosCentral (radians lat) (radians lon) (radians lat) (radians lon) = 1 := by
    unfold cosCentral
    rw [sub_self, Real.cos_zero]
    have := Real.sin_sq_add_cos_sq (radians lat)
    nlinarith
  rw [hone, Real.arccos_one, mul_zero]

/-- The haversine distance is nonnegative. -/
theorem haversine_nonneg (lat1 lon1 lat2 lon2 : ℝ) : 0 ≤ haversine lat1 lon1 lat2 lon2 := by
  rw [haversine_eq_arccos]
  exact mul_nonneg (by norm_num) (Real.arccos_nonneg _)

/-- The haversine distance is symmetric. -/
theorem haversine_comm (lat1 lon1 lat2 lon2 : ℝ) :
    haversine lat1 lon1 lat2 lon2 = haversine lat2 lon2 lat1 lon1 := by
  rw [haversine_eq_arccos, haversine_eq_arccos]
  congr 1
  unfold cosCentral
  rw [show radians lon1 - radians lon2 = -(radians lon2 - radians lon1) from by ring,
    Real.cos_neg]
  ring

/-- A walk in the undirected multigraph from `u` to `w`: the list of
edges traversed, each incident to the current node in either
orientation. -/
inductive IsWalk {K : Type} (g : Graph K) : ℕ → ℕ → List Edge → Prop where
  | nil (u : ℕ) : IsWalk g u u []
  | cons (e : Edge) (u v w : ℕ) (es : List Edge) (he : e ∈ g.edges)
      (hend : (e.u = u ∧ e.v = v) ∨ (e.u = v ∧ e.v = u))
      (hrest : IsWalk g v w es) : IsWalk g u w (e :: es)

/-- Total `length`-weight of a walk's edges on a given graph variant. -/
def walkCost (g : Graph K) (es : List Edge) : K :=
  (es.map fun e => g.attrs e.eid "length").sum

/-- Every edge of a walk is an edge of the graph. -/
theorem IsWalk.edges_mem {g : Graph K} {u v : ℕ} {es : List Edge}
    (hw : IsWalk g u v es) : ∀ e ∈ es, e ∈ g.edges := by
  induction hw with
  | nil u => simp
  | cons e u v w es he hend hrest ih =>
    intro e' he'
    rcases List.mem_cons.mp he' with rfl | h
    · exact he
    · exact ih e' h

/-- On a base graph whose every edge is at least as long as the haversine
distance between its endpoints, the haversine distance between the ends
of a walk is a lower bound on the walk's cost. -/
theorem walk_haversine_le_cost (g : Graph ℝ)
    (hedge : ∀ e ∈ g.edges,
      haversine (nodeY g e.u) (nodeX g e.u) (nodeY g e.v) (nodeX g e.v) ≤
        g.attrs e.eid "length")
    {u v : ℕ} {es : List Edge} (hw : IsWalk g u v es) :
    haversine (nodeY g u) (nodeX g u) (nodeY g v) (nodeX g v) ≤ walkCost g es := by
  induction hw with
  | nil u =>
    rw [haversine_self]
    simp [walkCost]
  | cons e u v w es he hend hrest ih =>
    have hstep : haversine (nodeY g u) (nodeX g u) (nodeY g v) (nodeX g v) ≤
        g.attrs e.eid "length" := by
      rcases hend with ⟨h1, h2⟩ | ⟨h1, h2⟩
      · have := hedge e he
        rw [h1, h2] at this
        exact this
      · have := hedge e he
        rw [h1, h2] at this
        rw [haversine_comm]
        exact this
    have htri := haversine_triangle (nodeY g u) (nodeX g u) (nodeY g v) (nodeX g v)
      (nodeY g w) (nodeX g w)
    have : walkCost g (e :: es) = g.attrs e.eid "length" + walkCost g es := by
      simp [walkCost]
    rw [this]
    linarith

/-- Walk costs only grow under the weight adjustment (nonnegative
severities, nonnegative base lengths). -/
theorem walkCost_le_adjust (g : Graph ℝ) (spots : List (ℝ × ℝ × ℝ)) (radius : ℝ)
    (hsev : ∀ spot ∈ spots, 0 ≤ spot.2.2) (es : List Edge)
    (hnn : ∀ e ∈ es, 0 ≤ g.attrs e.eid "length") :
    walkCost g es ≤ walkCost (adjust_weights_for_crime g spots radius) es := by
  induction es with
  | nil => simp [walkCost]
  | cons e rest ih =>
    have h1 : g.attrs e.eid "length" ≤
        (adjust_weights_for_crime g spots radius).attrs e.eid "length" :=
      adjust_length_ge g spots radius hsev e.eid (hnn e (List.mem_cons_self e rest))
    have h2 := ih fun e' he' => hnn e' (List.mem_cons_of_mem e he')
    simp only [walkCost, List.map_cons, List.sum_cons] at *
    linarith

/-- C2: on every weighted variant produced by `adjust_weights_for_crime`
(nonnegative severities) from a base graph whose every edge `length` is
at least the haversine great-circle distance between its endpoints, the
haversine heuristic value between two nodes never exceeds the cost of
any walk between them under the adjusted `length` weights — in
particular it never overestimates the cheapest path cost, so the A*
heuristic of `get_astar_route` is admissible on every variant. -/
theorem haversine_admissible (g : Graph ℝ) (spots : List (ℝ × ℝ × ℝ)) (radius : ℝ)
    (hsev : ∀ spot ∈ spots, 0 ≤ spot.2.2)
    (hedge : ∀ e ∈ g.edges,
      haversine (nodeY g e.u) (nodeX g e.u) (nodeY g e.v) (nodeX g e.v) ≤
        g.attrs e.eid "length")
    (u v : ℕ) (es : List Edge) (hw : IsWalk g u v es) :
    haversine (nodeY g u) (nodeX g u) (nodeY g v) (nodeX g v) ≤
      walkCost (adjust_weights_for_crime g spots radius) es := by
  have h1 := walk_haversine_le_cost g hedge hw
  have h2 : walkCost g es ≤ walkCost (adjust_weights_for_crime g spots radius) es := by
    apply walkCost_le_adjust g spots radius hsev es
    intro e he
    exact le_trans (haversine_nonneg _ _ _ _) (hedge e (hw.edges_mem e he))
  linarith

/-- The haversine distance never exceeds four Earth radii (the central
angle is at most `π ≤ 4`). -/
theorem haversine_le_four_radii (lat1 lon1 lat2 lon2 : ℝ) :
    haversine lat1 lon1 lat2 lon2 ≤ 6371 * 4 := by
  rw [haversine_eq_arccos]
  have h1 := Real.arccos_le_pi
    (cosCentral (radians lat1) (radians lon1) (radians lat2) (radians lon2))
  have h2 := Real.pi_le_four
  exact mul_le_mul_of_nonneg_left (le_trans h1 h2) (by norm_num)

/-- One-edge graph over `ℝ` for the C2 witness: node `0` at
`(lat, lon) = (0, 0)` and node `1` one degree of longitude away at
`(0, 1)`, joined by edge key `0` with `length = 6371 * 4` — at least the
haversine distance between its endpoints by `haversine_le_four_radii`. -/
noncomputable def gE : Graph ℝ :=
  { nodes := [⟨0, 0, 0⟩, ⟨1, 1, 0⟩]
    edges := [⟨0, 0, 1⟩]
    attrs := fun _ _ => 6371 * 4 }

/-- Witness for C2 at a concrete input exercising every hypothesis: on
`gE`, with a severity-`1/2` crime spot at node `0`'s coordinates (radius
`1`, so the spot's box contains node `0` and the adjustment multiplies
the edge's length by `3/2`), the heuristic value between the ends of the
one-edge walk from node `0` to node `1` does not exceed the walk's
adjusted cost. -/
theorem haversine_admissible_witness :
    haversine (nodeY gE 0) (nodeX gE 0) (nodeY gE 1) (nodeX gE 1) ≤
      walkCost (adjust_weights_for_crime gE [(0, 0, 1/2)] 1) [⟨0, 0, 1⟩] :=
  haversine_admissible gE [(0, 0, 1/2)] 1
    (by
      intro s hs
      rw [List.mem_singleton] at hs
      subst hs
      norm_num)
    (by
      intro e he
      rw [show gE.edges = [⟨0, 0, 1⟩] from rfl, List.mem_singleton] at he
      subst he
      exact haversine_le_four_radii _ _ _ _)
    0 1 [⟨0, 0, 1⟩]
    (IsWalk.cons ⟨0, 0, 1⟩ 0 1 1 []
      (show (⟨0, 0, 1⟩ : Edge) ∈ [(⟨0, 0, 1⟩ : Edge)] from List.mem_singleton.mpr rfl)
      (Or.inl ⟨rfl, rfl⟩) (IsWalk.nil 1))

end SafeRoute
